import Mathlib

/-
Shallow embedding of the GigFlow marketplace server core.

Sources embedded:
- src/server/models.js      : Gig and Bid schemas (status enums, fields).
- src/server/index.js       : POST /api/hire handler and POST /api/bids handler.
- src/unnamed/part_004      : PATCH /api/bids/:bidId/hire handler (fetches the bid
                              first, derives gigId from it, emits a socket.io
                              notification after commit), POST /api/bids handler.
- src/unnamed/part_000      : requestWithFallback and the module-level
                              isBackendOffline circuit-breaker flag.

MongoDB collections are modelled as lists of records; `_id` lookups as
`List.find?` on the id field; `updateMany` / `findByIdAndUpdate` as maps over
the list; a session transaction as an all-or-nothing state change where every
throw before commit leaves the original store, and a failed commit
(`commitOk = false`) likewise leaves the original store.
-/

namespace GigFlow

/-- Gig status enum from src/server/models.js: the source strings are
'open' (here `opened`, since `open` is a Lean keyword) and 'assigned'. -/
inductive GigStatus where
  | opened
  | assigned
deriving DecidableEq, Repr

/-- Bid status enum from src/server/models.js: 'pending', 'hired', 'rejected'. -/
inductive BidStatus where
  | pending
  | hired
  | rejected
deriving DecidableEq, Repr

/-- Gig record, from the gigSchema in src/server/models.js. -/
structure Gig where
  id : String
  title : String
  description : String
  budget : Nat
  ownerId : String
  ownerName : String
  status : GigStatus
deriving DecidableEq, Repr

/-- Bid record, from the bidSchema in src/server/models.js. -/
structure Bid where
  id : String
  gigId : String
  freelancerId : String
  freelancerName : String
  message : String
  price : Nat
  status : BidStatus
deriving DecidableEq, Repr

/-- The persisted store: the Gig and Bid MongoDB collections. -/
structure Store where
  gigs : List Gig
  bids : List Bid
deriving DecidableEq, Repr

/-- Errors thrown by the hire handlers; each constructor corresponds to one
thrown message in src/server/index.js and src/unnamed/part_004.
`transactionFailure` stands for a commit that could not complete, which the
shared catch block also turns into a 400 response after aborting. -/
inductive HireError where
  | bidNotFound
  | unauthorizedOrGigNotFound
  | gigNotOpen
  | transactionFailure
deriving DecidableEq, Repr

/-- Error thrown by POST /api/bids when the same freelancer already has a bid
on the gig: the source message is 'Already bid on this gig'. -/
inductive BidError where
  | alreadyBid
deriving DecidableEq, Repr

/-- Notification event emitted by PATCH /api/bids/:bidId/hire after commit:
`io.to(bidToHire.freelancerId).emit(payload)` with payload fields
id (the bid id), gigId, price and status. `room` is the socket.io room the
event is addressed to, i.e. the winning freelancer's user id. -/
structure Notification where
  room : String
  id : String
  gigId : String
  price : Nat
  status : BidStatus
deriving DecidableEq, Repr

/-- Gig.findById. -/
def findGig (s : Store) (gigId : String) : Option Gig :=
  s.gigs.find? (fun g => g.id = gigId)

/-- Bid.findById. -/
def findBid (s : Store) (bidId : String) : Option Bid :=
  s.bids.find? (fun b => b.id = bidId)

/-- gig.status = 'assigned'; gig.save(): write back the gig document with the
given id. -/
def assignGig (gigs : List Gig) (gigId : String) : List Gig :=
  gigs.map (fun g => if g.id = gigId then { g with status := GigStatus.assigned } else g)

/-- Bid.updateMany on the gigId filter, setting status 'rejected' on every
bid of the gig. -/
def rejectBidsOfGig (bids : List Bid) (gigId : String) : List Bid :=
  bids.map (fun b => if b.gigId = gigId then { b with status := BidStatus.rejected } else b)

/-- Bid.findByIdAndUpdate of bidId, setting status 'hired'; the id carries a
unique index, so updating every record whose id matches is the same update. -/
def hireBidById (bids : List Bid) (bidId : String) : List Bid :=
  bids.map (fun b => if b.id = bidId then { b with status := BidStatus.hired } else b)

/-- The POST /api/hire handler of src/server/index.js, lines 143-169.
Reads gigId and bidId from the request body; fetches the gig, rejects with
'Unauthorized or Gig not found' when the gig is absent or the actor is not its
owner, rejects with 'Gig is not open' when the gig is not open; otherwise
assigns the gig, rejects every bid of the gig, marks the bid with id bidId (if
any) hired, and commits.  It never fetches the bid, so a missing or
foreign-gig bidId is not detected.  `commitOk = false` models a commit that
fails: the transaction aborts and the store is unchanged. -/
def hirePost (commitOk : Bool) (actorId gigId bidId : String) (s : Store) :
    Option HireError × Store :=
  match findGig s gigId with
  | none => (some HireError.unauthorizedOrGigNotFound, s)
  | some gig =>
    if gig.ownerId ≠ actorId then (some HireError.unauthorizedOrGigNotFound, s)
    else if gig.status ≠ GigStatus.opened then (some HireError.gigNotOpen, s)
    else
      let committed : Store :=
        { gigs := assignGig s.gigs gigId
          bids := hireBidById (rejectBidsOfGig s.bids gigId) bidId }
      if commitOk then (none, committed) else (some HireError.transactionFailure, s)

/-- The PATCH /api/bids/:bidId/hire handler of src/unnamed/part_004,
lines 230-275.  Fetches the bid first and rejects with 'Bid not found' when it
is absent; derives gigId from the bid; fetches the gig and rejects with
'Unauthorized or Gig not found' when it is absent or the actor is not its
owner; rejects with 'Gig is not open' when the gig is not open; otherwise
assigns the gig, rejects every bid of the gig, marks the target bid hired,
commits, and then emits one notification to the room named by the hired bid's
freelancerId, carrying the bid id, the gig id, the bid's price and status
'hired'.  Every failure path aborts the transaction, so it returns the
original store and no notification. -/
def hirePatch (commitOk : Bool) (actorId bidId : String) (s : Store) :
    Option HireError × Store × List Notification :=
  match findBid s bidId with
  | none => (some HireError.bidNotFound, s, [])
  | some bidToHire =>
    let gigId := bidToHire.gigId
    match findGig s gigId with
    | none => (some HireError.unauthorizedOrGigNotFound, s, [])
    | some gig =>
      if gig.ownerId ≠ actorId then (some HireError.unauthorizedOrGigNotFound, s, [])
      else if gig.status ≠ GigStatus.opened then (some HireError.gigNotOpen, s, [])
      else
        let committed : Store :=
          { gigs := assignGig s.gigs gigId
            bids := hireBidById (rejectBidsOfGig s.bids gigId) bidId }
        if commitOk then
          (none, committed,
            [{ room := bidToHire.freelancerId
               id := bidToHire.id
               gigId := gig.id
               price := bidToHire.price
               status := BidStatus.hired }])
        else (some HireError.transactionFailure, s, [])

/-- Socket.io delivery: a notification emitted to a room reaches exactly the
clients that joined that room (src/unnamed/part_004, lines 42-51: each client
joins the room named by its userId).  Delivery touches no persisted record. -/
def dispatchNotifications (connected : List String) (ns : List Notification) :
    List Notification :=
  ns.filter (fun n => connected.contains n.room)

/-- The POST /api/bids handler (src/server/index.js lines 124-140 and
src/unnamed/part_004 lines 211-227, identical logic): if the requesting user
already has a bid on the gig, fail with 'Already bid on this gig' and change
nothing; otherwise insert a new bid with status 'pending' for that user. -/
def createBid (actorId actorName gigId message : String) (price : Nat)
    (newId : String) (s : Store) : Option BidError × Store :=
  match s.bids.find? (fun b => b.gigId = gigId ∧ b.freelancerId = actorId) with
  | some _ => (some BidError.alreadyBid, s)
  | none =>
    (none,
      { s with bids := s.bids ++
          [{ id := newId
             gigId := gigId
             freelancerId := actorId
             freelancerName := actorName
             message := message
             price := price
             status := BidStatus.pending }] })

/-- Bids of gig `G` currently marked hired. -/
def hiredBids (bids : List Bid) (G : String) : List Bid :=
  bids.filter (fun b => b.gigId = G ∧ b.status = BidStatus.hired)

/-- Number of hired bids of gig `G` in the store. -/
def hiredCount (s : Store) (G : String) : Nat :=
  (hiredBids s.bids G).length

/-- The data-model invariant stated in the spec (section 3): for a given
gigId at most one bid has status hired, and a hired bid's gig (when present)
has status assigned. -/
def hireInvariant (s : Store) : Prop :=
  (∀ b1 ∈ s.bids, ∀ b2 ∈ s.bids, b1.gigId = b2.gigId →
      b1.status = BidStatus.hired → b2.status = BidStatus.hired → b1 = b2)
  ∧ (∀ b ∈ s.bids, b.status = BidStatus.hired →
      ∀ g ∈ s.gigs, g.id = b.gigId → g.status = GigStatus.assigned)

instance (s : Store) : Decidable (hireInvariant s) := by
  unfold hireInvariant
  exact inferInstance

/-
Client API layer, src/unnamed/part_000: requestWithFallback and the
module-level circuit-breaker flag `isBackendOffline` (line 30, initially
false; set to true at line 104; never assigned false anywhere in the file).
A fetch attempt is abstracted by its observable outcome: success, or a thrown
error carrying an optional HTTP status, an error name, and whether its message
contains 'non-JSON' (the marker thrown by handleResponse).
-/

/-- Outcome of one fetchFn() attempt as requestWithFallback observes it. -/
inductive FetchOutcome where
  | ok
  | err (status : Option Nat) (errName : String) (msgHasNonJSON : Bool)
deriving DecidableEq, Repr

/-- What one requestWithFallback call did. -/
inductive ReqPath where
  | fallbackDirect
  | fetched
  | rethrown
  | fellBack
deriving DecidableEq, Repr

/-- isNetworkError at src/unnamed/part_000 line 98: AbortError, TypeError, or
a message containing 'non-JSON'. -/
def isNetworkFailure (errName : String) (msgHasNonJSON : Bool) : Bool :=
  errName == "AbortError" || errName == "TypeError" || msgHasNonJSON

/-- isServerError at src/unnamed/part_000 line 99: a status that is >= 500 or
exactly 404. -/
def isServerFailure (status : Option Nat) : Bool :=
  match status with
  | some st => decide (500 ≤ st) || decide (st = 404)
  | none => false

/-- The rethrow condition at src/unnamed/part_000 line 92: a 4xx status other
than 404 means the server answered and the error is rethrown with no fallback. -/
def isClientRejection (status : Option Nat) : Bool :=
  match status with
  | some st => decide (400 ≤ st) && decide (st < 500) && decide (st ≠ 404)
  | none => false

/-- One requestWithFallback call (src/unnamed/part_000 lines 73-120), as a
transition on the isBackendOffline flag: with the flag set the network is
skipped and the fallback runs; otherwise the fetch outcome is analysed, the
flag is raised on network or server failure, and the fallback runs for every
non-rethrown error. -/
def requestStep (offline : Bool) (o : FetchOutcome) : Bool × ReqPath :=
  if offline then (offline, ReqPath.fallbackDirect)
  else
    match o with
    | FetchOutcome.ok => (offline, ReqPath.fetched)
    | FetchOutcome.err status errName msgHasNonJSON =>
      if isClientRejection status then (offline, ReqPath.rethrown)
      else
        ((if isNetworkFailure errName msgHasNonJSON || isServerFailure status
          then true else offline), ReqPath.fellBack)

/-- A sequence of requestWithFallback calls within one process lifetime,
threading the module-level flag. -/
def runTrace (offline : Bool) : List FetchOutcome → Bool × List ReqPath
  | [] => (offline, [])
  | o :: os =>
    let st := requestStep offline o
    let rest := runTrace st.1 os
    (rest.1, st.2 :: rest.2)

/-
Concrete fixtures used by witnesses and counterexamples.
-/

/-- An open gig owned by owner1. -/
def gig1 : Gig :=
  { id := "g1", title := "Site", description := "Build a site", budget := 500,
    ownerId := "owner1", ownerName := "Alice", status := GigStatus.opened }

/-- A second open gig owned by owner1. -/
def gig2 : Gig :=
  { id := "g2", title := "Logo", description := "Design a logo", budget := 200,
    ownerId := "owner1", ownerName := "Alice", status := GigStatus.opened }

/-- A pending bid by freelancer f1 on gig g1. -/
def bid1 : Bid :=
  { id := "b1", gigId := "g1", freelancerId := "f1", freelancerName := "Fred",
    message := "I can do it", price := 100, status := BidStatus.pending }

/-- A pending bid by freelancer f2 on gig g1. -/
def bid2 : Bid :=
  { id := "b2", gigId := "g1", freelancerId := "f2", freelancerName := "Gina",
    message := "Pick me", price := 120, status := BidStatus.pending }

/-- Open gig g1 with two pending bids. -/
def store1 : Store := { gigs := [gig1], bids := [bid1, bid2] }

/-- Same marketplace after g1 was assigned: bid1 hired, bid2 rejected. -/
def storeAssigned : Store :=
  { gigs := [{ gig1 with status := GigStatus.assigned }],
    bids := [{ bid1 with status := BidStatus.hired },
             { bid2 with status := BidStatus.rejected }] }

/-- A pending bid whose id is b1 but which belongs to gig g2. -/
def bidOnGig2 : Bid :=
  { id := "b1", gigId := "g2", freelancerId := "f1", freelancerName := "Fred",
    message := "I can do it", price := 100, status := BidStatus.pending }

/-- Two open gigs of the same owner; the only bid belongs to g2. -/
def crossStore : Store := { gigs := [gig1, gig2], bids := [bidOnGig2] }

/-
Helper lemmas about list lookups and the committed write set.
-/

/-- In a list whose keys are pairwise distinct, searching for the key of a
member finds exactly that member. -/
theorem find_with_key_eq {α κ : Type} [DecidableEq κ] (key : α → κ) :
    ∀ (l : List α) (x : α), (l.map key).Nodup → x ∈ l →
      l.find? (fun y => key y = key x) = some x := by
  intro l
  induction l with
  | nil => intro x _ hx; cases hx
  | cons a t ih =>
    intro x hnd hx
    rw [List.map_cons, List.nodup_cons] at hnd
    rcases List.mem_cons.1 hx with rfl | hxt
    · simp [List.find?_cons]
    · have hne : key a ≠ key x := by
        intro h
        exact hnd.1 (h ▸ List.mem_map_of_mem key hxt)
      rw [List.find?_cons_of_neg _ (by simpa using hne)]
      exact ih x hnd.2 hxt

/-- In a list whose keys are pairwise distinct, the members carrying the key
of a member x are exactly x. -/
theorem filter_with_key_eq {α κ : Type} [DecidableEq κ] (key : α → κ) :
    ∀ (l : List α) (x : α), (l.map key).Nodup → x ∈ l →
      l.filter (fun y => key y = key x) = [x] := by
  intro l
  induction l with
  | nil => intro x _ hx; cases hx
  | cons a t ih =>
    intro x hnd hx
    rw [List.map_cons, List.nodup_cons] at hnd
    rcases List.mem_cons.1 hx with rfl | hxt
    · rw [List.filter_cons_of_pos (by simp)]
      have : t.filter (fun y => key y = key x) = [] := by
        rw [List.filter_eq_nil_iff]
        intro b hb hkb
        have hk : key b = key x := by simpa using hkb
        exact hnd.1 (hk ▸ List.mem_map_of_mem key hb)
      rw [this]
    · have hne : key a ≠ key x := by
        intro h
        exact hnd.1 (h ▸ List.mem_map_of_mem key hxt)
      rw [List.filter_cons_of_neg (by simpa using hne)]
      exact ih x hnd.2 hxt

/-- find? commutes with a map that does not change whether the predicate
holds. -/
theorem find_over_map {α : Type} (p : α → Bool) (f : α → α)
    (hp : ∀ x, p (f x) = p x) :
    ∀ l : List α, (l.map f).find? p = (l.find? p).map f := by
  intro l
  have hfun : p ∘ f = p := funext hp
  rw [List.find?_map, hfun]

/-- filter after a map is a map after a filter on the composed predicate. -/
theorem filter_over_map {α : Type} (p : α → Bool) (f : α → α) :
    ∀ l : List α, (l.map f).filter p = (l.filter (fun x => p (f x))).map f := by
  intro l
  rw [List.filter_map]
  rfl

/-- The write set of a committed hire on gig G and bid i, as one pass over the
bid collection: the bid with id i becomes hired, every other bid of G becomes
rejected, bids of other gigs are untouched. -/
theorem committed_bids_map (bids : List Bid) (G i : String) :
    hireBidById (rejectBidsOfGig bids G) i
      = bids.map (fun b =>
          if b.id = i then { b with status := BidStatus.hired }
          else if b.gigId = G then { b with status := BidStatus.rejected }
          else b) := by
  unfold hireBidById rejectBidsOfGig
  rw [List.map_map]
  apply List.map_congr_left
  intro b _
  by_cases h1 : b.gigId = G <;> by_cases h2 : b.id = i <;>
    simp [Function.comp, h1, h2]

/-- The committed write set does not change any bid id. -/
theorem committed_ids (bids : List Bid) (G i : String) :
    (hireBidById (rejectBidsOfGig bids G) i).map Bid.id = bids.map Bid.id := by
  rw [committed_bids_map, List.map_map]
  apply List.map_congr_left
  intro b _
  by_cases h1 : b.gigId = G <;> by_cases h2 : b.id = i <;>
    simp [Function.comp, h1, h2]

/-- Status of each bid after the committed write set. -/
theorem committed_bid_status (bids : List Bid) (G i : String) :
    ∀ b' ∈ hireBidById (rejectBidsOfGig bids G) i,
      (b'.id = i → b'.status = BidStatus.hired)
      ∧ (b'.id ≠ i → b'.gigId = G → b'.status = BidStatus.rejected) := by
  intro b' hb'
  rw [committed_bids_map] at hb'
  obtain ⟨b0, _, rfl⟩ := List.mem_map.1 hb'
  by_cases h2 : b0.id = i
  · simp [h2]
  · by_cases h1 : b0.gigId = G <;> simp [h1, h2]

/-- Every gig with id G is assigned after assignGig gigs G. -/
theorem assignGig_assigned (gigs : List Gig) (G : String) :
    ∀ g ∈ assignGig gigs G, g.id = G → g.status = GigStatus.assigned := by
  intro g hg
  unfold assignGig at hg
  obtain ⟨g0, _, rfl⟩ := List.mem_map.1 hg
  by_cases h : g0.id = G <;> simp [h]

/-- assignGig does not change gig ids, so a find? by id passes through it. -/
theorem find_over_assignGig (gigs : List Gig) (G j : String) :
    (assignGig gigs G).find? (fun g => g.id = j)
      = (gigs.find? (fun g => g.id = j)).map
          (fun g => if g.id = G then { g with status := GigStatus.assigned } else g) := by
  unfold assignGig
  apply find_over_map
  intro g
  by_cases h : g.id = G <;> simp [h]

/-- The committed write set keeps bid ids, so a find? by id passes through it. -/
theorem find_over_committed (bids : List Bid) (G i j : String) :
    (hireBidById (rejectBidsOfGig bids G) i).find? (fun b => b.id = j)
      = (bids.find? (fun b => b.id = j)).map
          (fun b =>
            if b.id = i then { b with status := BidStatus.hired }
            else if b.gigId = G then { b with status := BidStatus.rejected }
            else b) := by
  rw [committed_bids_map]
  apply find_over_map
  intro b
  by_cases h1 : b.gigId = G <;> by_cases h2 : b.id = i <;> simp [h1, h2]

/-- After a committed hire of bid b on its gig, the hired bids of that gig
are exactly b (now marked hired). -/
theorem hiredBids_committed (bids : List Bid) (b : Bid)
    (hnd : (bids.map Bid.id).Nodup) (hb : b ∈ bids) :
    hiredBids (hireBidById (rejectBidsOfGig bids b.gigId) b.id) b.gigId
      = [{ b with status := BidStatus.hired }] := by
  unfold hiredBids
  rw [committed_bids_map, filter_over_map]
  have hcongr : bids.filter
      (fun x => decide
        ((if x.id = b.id then { x with status := BidStatus.hired }
          else if x.gigId = b.gigId then { x with status := BidStatus.rejected }
          else x).gigId = b.gigId
        ∧ (if x.id = b.id then { x with status := BidStatus.hired }
          else if x.gigId = b.gigId then { x with status := BidStatus.rejected }
          else x).status = BidStatus.hired))
      = bids.filter (fun x => decide (x.id = b.id)) := by
    apply List.filter_congr
    intro x hx
    by_cases h2 : x.id = b.id
    · have hxb : x = b := List.inj_on_of_nodup_map hnd hx hb h2
      subst hxb
      simp [h2]
    · by_cases h1 : x.gigId = b.gigId <;> simp [h1, h2]
  rw [hcongr, filter_with_key_eq Bid.id bids b hnd hb]
  simp

/-- Exhaustive description of hirePatch: either some precondition failed or
the commit failed, and then the store is returned untouched with no
notification; or all preconditions held, the commit landed, and the result is
the committed write set together with the single notification to the hired
freelancer's room. -/
theorem hirePatch_cases (commitOk : Bool) (actorId bidId : String) (s : Store) :
    (∃ e, hirePatch commitOk actorId bidId s = (some e, s, []))
    ∨ (∃ b g, findBid s bidId = some b ∧ findGig s b.gigId = some g
        ∧ g.ownerId = actorId ∧ g.status = GigStatus.opened ∧ commitOk = true
        ∧ hirePatch commitOk actorId bidId s
            = (none,
               { gigs := assignGig s.gigs b.gigId,
                 bids := hireBidById (rejectBidsOfGig s.bids b.gigId) bidId },
               [{ room := b.freelancerId, id := b.id, gigId := g.id,
                  price := b.price, status := BidStatus.hired }])) := by
  rcases hfb : findBid s bidId with _ | b
  · exact Or.inl ⟨HireError.bidNotFound, by unfold hirePatch; rw [hfb]⟩
  · rcases hfg : findGig s b.gigId with _ | g
    · exact Or.inl ⟨HireError.unauthorizedOrGigNotFound,
        by unfold hirePatch; rw [hfb]; dsimp only; rw [hfg]⟩
    · by_cases hown : g.ownerId = actorId
      · by_cases hopen : g.status = GigStatus.opened
        · cases commitOk with
          | false =>
            exact Or.inl ⟨HireError.transactionFailure,
              by unfold hirePatch; rw [hfb]; dsimp only; rw [hfg]
                 simp [hown, hopen]⟩
          | true =>
            refine Or.inr ⟨b, g, rfl, hfg, hown, hopen, rfl, ?_⟩
            unfold hirePatch
            rw [hfb]
            dsimp only
            rw [hfg]
            simp [hown, hopen]
        · exact Or.inl ⟨HireError.gigNotOpen,
            by unfold hirePatch; rw [hfb]; dsimp only; rw [hfg]
               simp [hown, hopen]⟩
      · exact Or.inl ⟨HireError.unauthorizedOrGigNotFound,
          by unfold hirePatch; rw [hfb]; dsimp only; rw [hfg]
             simp [hown]⟩

/-- Exhaustive description of hirePost: either some precondition failed or the
commit failed, and then the store is returned untouched; or the gig was found
open and owned by the actor, the commit landed, and the result is the
committed write set.  No condition on the bid appears anywhere. -/
theorem hirePost_cases (commitOk : Bool) (actorId gigId bidId : String) (s : Store) :
    (∃ e, hirePost commitOk actorId gigId bidId s = (some e, s))
    ∨ (∃ g, findGig s gigId = some g
        ∧ g.ownerId = actorId ∧ g.status = GigStatus.opened ∧ commitOk = true
        ∧ hirePost commitOk actorId gigId bidId s
            = (none,
               { gigs := assignGig s.gigs gigId,
                 bids := hireBidById (rejectBidsOfGig s.bids gigId) bidId })) := by
  rcases hfg : findGig s gigId with _ | g
  · exact Or.inl ⟨HireError.unauthorizedOrGigNotFound, by unfold hirePost; rw [hfg]⟩
  · by_cases hown : g.ownerId = actorId
    · by_cases hopen : g.status = GigStatus.opened
      · cases commitOk with
        | false =>
          exact Or.inl ⟨HireError.transactionFailure,
            by unfold hirePost; rw [hfg]; simp [hown, hopen]⟩
        | true =>
          refine Or.inr ⟨g, rfl, hown, hopen, rfl, ?_⟩
          unfold hirePost
          rw [hfg]
          simp [hown, hopen]
      · exact Or.inl ⟨HireError.gigNotOpen,
          by unfold hirePost; rw [hfg]; simp [hown, hopen]⟩
    · exact Or.inl ⟨HireError.unauthorizedOrGigNotFound,
        by unfold hirePost; rw [hfg]; simp [hown]⟩

/-- hirePatch on the happy path: bid found, gig found, owner matches, gig
open, commit lands. -/
theorem hirePatch_success_eq (actorId bidId : String) (b : Bid) (g : Gig)
    (s : Store)
    (hfb : findBid s bidId = some b)
    (hfg : findGig s b.gigId = some g)
    (hown : g.ownerId = actorId) (hopen : g.status = GigStatus.opened) :
    hirePatch true actorId bidId s
      = (none,
         { gigs := assignGig s.gigs b.gigId,
           bids := hireBidById (rejectBidsOfGig s.bids b.gigId) bidId },
         [{ room := b.freelancerId, id := b.id, gigId := g.id,
            price := b.price, status := BidStatus.hired }]) := by
  unfold hirePatch
  rw [hfb]
  dsimp only
  rw [hfg]
  simp [hown, hopen]

/-- hirePatch when the bid id names no bid: 'Bid not found', nothing written. -/
theorem hirePatch_no_bid_eq (commitOk : Bool) (actorId bidId : String)
    (s : Store) (hfb : findBid s bidId = none) :
    hirePatch commitOk actorId bidId s = (some HireError.bidNotFound, s, []) := by
  unfold hirePatch
  rw [hfb]

/-- hirePatch when the bid's gig is not open: 'Gig is not open', nothing
written. -/
theorem hirePatch_not_open_eq (commitOk : Bool) (actorId bidId : String)
    (b : Bid) (g : Gig) (s : Store)
    (hfb : findBid s bidId = some b)
    (hfg : findGig s b.gigId = some g)
    (hown : g.ownerId = actorId) (hclosed : g.status ≠ GigStatus.opened) :
    hirePatch commitOk actorId bidId s = (some HireError.gigNotOpen, s, []) := by
  unfold hirePatch
  rw [hfb]
  dsimp only
  rw [hfg]
  simp [hown, hclosed]

/-- hirePost on the happy path: gig found, owner matches, gig open, commit
lands — with no condition whatsoever on the bid id. -/
theorem hirePost_success_eq (actorId gigId bidId : String) (g : Gig)
    (s : Store)
    (hfg : findGig s gigId = some g)
    (hown : g.ownerId = actorId) (hopen : g.status = GigStatus.opened) :
    hirePost true actorId gigId bidId s
      = (none,
         { gigs := assignGig s.gigs gigId,
           bids := hireBidById (rejectBidsOfGig s.bids gigId) bidId }) := by
  unfold hirePost
  rw [hfg]
  simp [hown, hopen]

/-- hirePost when the gig is not open: 'Gig is not open', nothing written,
whatever the bid id. -/
theorem hirePost_not_open_eq (commitOk : Bool) (actorId gigId bidId : String)
    (g : Gig) (s : Store)
    (hfg : findGig s gigId = some g)
    (hown : g.ownerId = actorId) (hclosed : g.status ≠ GigStatus.opened) :
    hirePost commitOk actorId gigId bidId s = (some HireError.gigNotOpen, s) := by
  unfold hirePost
  rw [hfg]
  simp [hown, hclosed]

/-
Claims.
-/

/-- C1: for every gig with at least one pending bid, a successful
hire(owner, G, b) on a bid b of that gig leaves the bid with id b hired,
every other bid of the gig rejected, and the gig assigned — for both the
PATCH /api/bids/:bidId/hire handler and the POST /api/hire handler. -/
theorem hire_success_postcondition (commitOk : Bool) (actorId : String)
    (b : Bid) (s : Store)
    (hnd : (s.bids.map Bid.id).Nodup)
    (hb : b ∈ s.bids)
    (hpend : ∃ p ∈ s.bids, p.gigId = b.gigId ∧ p.status = BidStatus.pending) :
    ((hirePatch commitOk actorId b.id s).1 = none →
      (∀ b' ∈ (hirePatch commitOk actorId b.id s).2.1.bids,
          (b'.id = b.id → b'.status = BidStatus.hired)
          ∧ (b'.id ≠ b.id → b'.gigId = b.gigId → b'.status = BidStatus.rejected))
      ∧ (∀ g ∈ (hirePatch commitOk actorId b.id s).2.1.gigs,
          g.id = b.gigId → g.status = GigStatus.assigned)
      ∧ b.id ∈ (hirePatch commitOk actorId b.id s).2.1.bids.map Bid.id)
    ∧ ((hirePost commitOk actorId b.gigId b.id s).1 = none →
      (∀ b' ∈ (hirePost commitOk actorId b.gigId b.id s).2.bids,
          (b'.id = b.id → b'.status = BidStatus.hired)
          ∧ (b'.id ≠ b.id → b'.gigId = b.gigId → b'.status = BidStatus.rejected))
      ∧ (∀ g ∈ (hirePost commitOk actorId b.gigId b.id s).2.gigs,
          g.id = b.gigId → g.status = GigStatus.assigned)
      ∧ b.id ∈ (hirePost commitOk actorId b.gigId b.id s).2.bids.map Bid.id) := by
  constructor
  · intro hsucc
    rcases hirePatch_cases commitOk actorId b.id s with ⟨e, he⟩ |
      ⟨b', g, hfb, hfg, hown, hopen, hci, heq⟩
    · rw [he] at hsucc
      simp at hsucc
    · have hfb2 : findBid s b.id = some b := find_with_key_eq Bid.id s.bids b hnd hb
      have hbb : b' = b := by
        rw [hfb] at hfb2
        exact Option.some.inj hfb2
      subst hbb
      rw [heq]
      refine ⟨?_, ?_, ?_⟩
      · intro b2 hb2
        exact committed_bid_status s.bids b'.gigId b'.id b2 hb2
      · intro g2 hg2
        exact assignGig_assigned s.gigs b'.gigId g2 hg2
      · show b'.id ∈ (hireBidById (rejectBidsOfGig s.bids b'.gigId) b'.id).map Bid.id
        rw [committed_ids]
        exact List.mem_map_of_mem Bid.id hb
  · intro hsucc
    rcases hirePost_cases commitOk actorId b.gigId b.id s with ⟨e, he⟩ |
      ⟨g, hfg, hown, hopen, hci, heq⟩
    · rw [he] at hsucc
      simp at hsucc
    · rw [heq]
      refine ⟨?_, ?_, ?_⟩
      · intro b2 hb2
        exact committed_bid_status s.bids b.gigId b.id b2 hb2
      · intro g2 hg2
        exact assignGig_assigned s.gigs b.gigId g2 hg2
      · show b.id ∈ (hireBidById (rejectBidsOfGig s.bids b.gigId) b.id).map Bid.id
        rw [committed_ids]
        exact List.mem_map_of_mem Bid.id hb

/-- C1 witness: hiring bid b1 on store1 satisfies the hypotheses, and the
postcondition applies to the updated record of bid b1. -/
theorem hire_success_postcondition_witness :
    (bid1 ∈ store1.bids ∧ (store1.bids.map Bid.id).Nodup
      ∧ (hirePatch true "owner1" bid1.id store1).1 = none)
    ∧ ({ bid1 with status := BidStatus.hired } : Bid).status = BidStatus.hired :=
  ⟨⟨by decide, by decide, by decide⟩,
   (((hire_success_postcondition true "owner1" bid1 store1 (by decide) (by decide)
        ⟨bid1, by decide, rfl, rfl⟩).1 (by decide)).1
      { bid1 with status := BidStatus.hired } (by decide)).1 rfl⟩

/-- C2 evaluated at the failing input: crossStore satisfies the spec
invariant and holds two open gigs of the same owner plus one pending bid that
belongs to gig g2; POST /api/hire for gig g1 with that bid's id commits
successfully, and afterwards a bid is marked hired while its owning gig g2 is
still open — the invariant is broken.  The PATCH handler cannot reach this
state because it derives the gig from the bid. -/
theorem hirePost_breaks_hire_invariant :
    hireInvariant crossStore
    ∧ (hirePost true "owner1" "g1" "b1" crossStore).1 = none
    ∧ (∃ b ∈ (hirePost true "owner1" "g1" "b1" crossStore).2.bids,
        b.status = BidStatus.hired
        ∧ ∃ g ∈ (hirePost true "owner1" "g1" "b1" crossStore).2.gigs,
            g.id = b.gigId ∧ g.status = GigStatus.opened)
    ∧ ¬ hireInvariant (hirePost true "owner1" "g1" "b1" crossStore).2 := by
  decide

/-- C3 evaluated at the failing input: no bid with id nobid exists in store1,
yet POST /api/hire for the open gig g1 with bidId nobid reports success
instead of NotFound(bid): the gig ends assigned, every bid of the gig is
rejected, and no bid at all is hired. -/
theorem hirePost_missing_bid_check :
    findBid store1 "nobid" = none
    ∧ (hirePost true "owner1" "g1" "nobid" store1).1 = none
    ∧ (∀ g ∈ (hirePost true "owner1" "g1" "nobid" store1).2.gigs,
        g.status = GigStatus.assigned)
    ∧ (∀ b ∈ (hirePost true "owner1" "g1" "nobid" store1).2.bids,
        b.status = BidStatus.rejected)
    ∧ hiredCount (hirePost true "owner1" "g1" "nobid" store1).2 "g1" = 0 := by
  decide

/-- C5 counterexample: on the PATCH hire handler, a hire against the assigned
gig of storeAssigned with a bid id that names no bid fails with
'Bid not found', not with the InvalidState error 'Gig is not open' the claim
requires for every bidId value. -/
theorem hire_assigned_unknown_bid_not_invalid_state :
    (∀ g ∈ storeAssigned.gigs, g.status = GigStatus.assigned)
    ∧ findBid storeAssigned "ghost" = none
    ∧ (hirePatch true "owner1" "ghost" storeAssigned).1 = some HireError.bidNotFound
    ∧ HireError.bidNotFound ≠ HireError.gigNotOpen := by
  decide

/-- C5 amended: when the gig of an existing bid is already assigned, a hire
of that bid by the gig's owner returns 'Gig is not open' and leaves the store
untouched; a bid id that names no bid instead returns 'Bid not found', still
leaving the store untouched; and the POST /api/hire handler does return
'Gig is not open' on an assigned gig for every bidId value, mutating
nothing. -/
theorem hire_assigned_gig_invalid_state (commitOk : Bool) (actorId : String)
    (b : Bid) (g : Gig) (s : Store)
    (hnd : (s.bids.map Bid.id).Nodup) (hb : b ∈ s.bids)
    (hfg : findGig s b.gigId = some g)
    (hown : g.ownerId = actorId) (hassigned : g.status = GigStatus.assigned) :
    hirePatch commitOk actorId b.id s = (some HireError.gigNotOpen, s, [])
    ∧ (∀ bidId, findBid s bidId = none →
        hirePatch commitOk actorId bidId s = (some HireError.bidNotFound, s, []))
    ∧ (∀ bidId, hirePost commitOk actorId b.gigId bidId s
        = (some HireError.gigNotOpen, s)) := by
  have hclosed : g.status ≠ GigStatus.opened := by
    rw [hassigned]
    exact fun h => GigStatus.noConfusion h
  have hfb : findBid s b.id = some b := find_with_key_eq Bid.id s.bids b hnd hb
  refine ⟨?_, ?_, ?_⟩
  · exact hirePatch_not_open_eq commitOk actorId b.id b g s hfb hfg hown hclosed
  · intro bidId hnone
    exact hirePatch_no_bid_eq commitOk actorId bidId s hnone
  · intro bidId
    exact hirePost_not_open_eq commitOk actorId b.gigId bidId g s hfg hown hclosed

/-- C5 witness: the amended statement applied to the hired bid of
storeAssigned, whose gig is assigned. -/
theorem hire_assigned_gig_invalid_state_witness :
    (({ bid1 with status := BidStatus.hired } : Bid) ∈ storeAssigned.bids
      ∧ findGig storeAssigned "g1" = some { gig1 with status := GigStatus.assigned })
    ∧ hirePatch true "owner1" "b1" storeAssigned
        = (some HireError.gigNotOpen, storeAssigned, []) :=
  ⟨⟨by decide, by decide⟩,
   (hire_assigned_gig_invalid_state true "owner1"
      { bid1 with status := BidStatus.hired }
      { gig1 with status := GigStatus.assigned } storeAssigned
      (by decide) (by decide) (by decide) (by decide) (by decide)).1⟩

/-- C6: a hire attempt by any actor other than the gig owner fails with the
error whose message names Unauthorized ('Unauthorized or Gig not found') and
leaves every record untouched, even when the bid exists, belongs to the gig,
and the gig is open — for both hire handlers. -/
theorem hire_unauthorized_no_mutation (commitOk : Bool) (actorId : String)
    (b : Bid) (g : Gig) (s : Store)
    (hnd : (s.bids.map Bid.id).Nodup) (hb : b ∈ s.bids)
    (hfg : findGig s b.gigId = some g)
    (_hopen : g.status = GigStatus.opened)
    (hown : g.ownerId ≠ actorId) :
    hirePatch commitOk actorId b.id s
      = (some HireError.unauthorizedOrGigNotFound, s, [])
    ∧ hirePost commitOk actorId b.gigId b.id s
      = (some HireError.unauthorizedOrGigNotFound, s) := by
  have hfb : findBid s b.id = some b := find_with_key_eq Bid.id s.bids b hnd hb
  constructor
  · unfold hirePatch
    rw [hfb]
    dsimp only
    rw [hfg]
    simp [hown]
  · unfold hirePost
    rw [hfg]
    simp [hown]

/-- C6 witness: the intruder mallory cannot hire bid b1 on gig g1. -/
theorem hire_unauthorized_no_mutation_witness :
    (bid1 ∈ store1.bids ∧ findGig store1 "g1" = some gig1
      ∧ gig1.ownerId ≠ "mallory")
    ∧ hirePatch true "mallory" "b1" store1
        = (some HireError.unauthorizedOrGigNotFound, store1, []) :=
  ⟨⟨by decide, by decide, by decide⟩,
   (hire_unauthorized_no_mutation true "mallory" bid1 gig1 store1
      (by decide) (by decide) (by decide) (by decide) (by decide)).1⟩

/-- C7: whenever either hire handler reports an error — NotFound,
Unauthorized, InvalidState, or a failed commit — the store after the call is
the store before the call and no notification is emitted: no fragment of the
write set survives a failed hire. -/
theorem hire_failure_no_mutation (commitOk : Bool)
    (actorId gigId bidId : String) (s : Store) (e e2 : HireError) :
    ((hirePatch commitOk actorId bidId s).1 = some e →
        (hirePatch commitOk actorId bidId s).2.1 = s
        ∧ (hirePatch commitOk actorId bidId s).2.2 = [])
    ∧ ((hirePost commitOk actorId gigId bidId s).1 = some e2 →
        (hirePost commitOk actorId gigId bidId s).2 = s) := by
  constructor
  · intro hfail
    rcases hirePatch_cases commitOk actorId bidId s with ⟨e', he⟩ |
      ⟨b, g, _, _, _, _, _, heq⟩
    · rw [he]
      exact ⟨rfl, rfl⟩
    · rw [heq] at hfail
      simp at hfail
  · intro hfail
    rcases hirePost_cases commitOk actorId gigId bidId s with ⟨e', he⟩ |
      ⟨g, _, _, _, _, heq⟩
    · rw [he]
    · rw [heq] at hfail
      simp at hfail

/-- C7 witness: the failed commit case on store1 leaves the store unchanged
and emits nothing. -/
theorem hire_failure_no_mutation_witness :
    ((hirePatch false "owner1" "b1" store1).1 = some HireError.transactionFailure)
    ∧ (hirePatch false "owner1" "b1" store1).2.1 = store1
    ∧ (hirePatch false "owner1" "b1" store1).2.2 = [] :=
  ⟨by decide,
   (hire_failure_no_mutation false "owner1" "g1" "b1" store1
      HireError.transactionFailure HireError.transactionFailure).1 (by decide)⟩

/-- C8: when some bid with the given gigId and the requesting freelancer's id
already exists, POST /api/bids fails with the duplicate-bid error and returns
the store unchanged: the existing bid is untouched and no record is added. -/
theorem createBid_duplicate_rejected (actorId actorName gigId message : String)
    (price : Nat) (newId : String) (s : Store) (b : Bid)
    (hb : b ∈ s.bids) (hg : b.gigId = gigId) (hf : b.freelancerId = actorId) :
    createBid actorId actorName gigId message price newId s
      = (some BidError.alreadyBid, s) := by
  unfold createBid
  rcases hfind : s.bids.find? (fun b' => b'.gigId = gigId ∧ b'.freelancerId = actorId)
    with _ | b'
  · exfalso
    have := List.find?_eq_none.1 hfind b hb
    simp [hg, hf] at this
  · rw [hfind]

/-- C8 witness: freelancer f1 cannot bid twice on gig g1. -/
theorem createBid_duplicate_rejected_witness :
    (bid1 ∈ store1.bids ∧ bid1.gigId = "g1" ∧ bid1.freelancerId = "f1")
    ∧ createBid "f1" "Fred" "g1" "again" 90 "b9" store1
        = (some BidError.alreadyBid, store1) :=
  ⟨⟨by decide, by decide, by decide⟩,
   createBid_duplicate_rejected "f1" "Fred" "g1" "again" 90 "b9" store1 bid1
     (by decide) (by decide) (by decide)⟩

/-- One serialization order of two hire transactions on the same open gig:
the first to commit wins, the second finds the gig no longer open, fails with
'Gig is not open', changes nothing, and the final store holds exactly one
hired bid of that gig. -/
theorem hire_race_order (actorId : String) (x y : Bid) (g : Gig) (s : Store)
    (hnd : (s.bids.map Bid.id).Nodup)
    (hx : x ∈ s.bids) (hy : y ∈ s.bids) (hne : y.id ≠ x.id)
    (hgx : x.gigId = g.id) (hgy : y.gigId = g.id)
    (hfg : findGig s g.id = some g)
    (hown : g.ownerId = actorId) (hopen : g.status = GigStatus.opened) :
    (hirePatch true actorId x.id s).1 = none
    ∧ (hirePatch true actorId y.id (hirePatch true actorId x.id s).2.1).1
        = some HireError.gigNotOpen
    ∧ (hirePatch true actorId y.id (hirePatch true actorId x.id s).2.1).2.1
        = (hirePatch true actorId x.id s).2.1
    ∧ hiredCount
        (hirePatch true actorId y.id (hirePatch true actorId x.id s).2.1).2.1
        g.id = 1 := by
  have hfbx : findBid s x.id = some x := find_with_key_eq Bid.id s.bids x hnd hx
  have hfgx : findGig s x.gigId = some g := by rw [hgx]; exact hfg
  have heq1 := hirePatch_success_eq actorId x.id x g s hfbx hfgx hown hopen
  have hfy : s.bids.find? (fun b => b.id = y.id) = some y :=
    find_with_key_eq Bid.id s.bids y hnd hy
  have hgyx : y.gigId = x.gigId := by rw [hgy, hgx]
  have hfby : findBid
      { gigs := assignGig s.gigs x.gigId,
        bids := hireBidById (rejectBidsOfGig s.bids x.gigId) x.id }
      y.id = some { y with status := BidStatus.rejected } := by
    show (hireBidById (rejectBidsOfGig s.bids x.gigId) x.id).find?
        (fun b => b.id = y.id) = _
    rw [find_over_committed, hfy]
    simp [hne, hgyx]
  have hfg2 : s.gigs.find? (fun g2 => g2.id = g.id) = some g := hfg
  have hfgy : findGig
      { gigs := assignGig s.gigs x.gigId,
        bids := hireBidById (rejectBidsOfGig s.bids x.gigId) x.id }
      y.gigId = some { g with status := GigStatus.assigned } := by
    show (assignGig s.gigs x.gigId).find? (fun g2 => g2.id = y.gigId) = _
    rw [find_over_assignGig, hgy, hfg2]
    simp [hgx]
  have heq2 := hirePatch_not_open_eq true actorId y.id
    { y with status := BidStatus.rejected } { g with status := GigStatus.assigned }
    { gigs := assignGig s.gigs x.gigId,
      bids := hireBidById (rejectBidsOfGig s.bids x.gigId) x.id }
    hfby hfgy hown (fun h => GigStatus.noConfusion h)
  refine ⟨?_, ?_, ?_, ?_⟩
  · rw [heq1]
  · rw [heq1]
    dsimp only
    rw [heq2]
  · rw [heq1]
    dsimp only
    rw [heq2]
  · rw [heq1]
    dsimp only
    rw [heq2]
    show hiredCount
      { gigs := assignGig s.gigs x.gigId,
        bids := hireBidById (rejectBidsOfGig s.bids x.gigId) x.id } g.id = 1
    unfold hiredCount
    dsimp only
    rw [← hgx, hiredBids_committed s.bids x hnd hx]
    rfl

/-- One serialization order of two POST /api/hire transactions on the same
open gig: the first to commit wins, the second finds the gig no longer open,
fails with 'Gig is not open', changes nothing, and the final store holds
exactly one hired bid of that gig. -/
theorem hirePost_race_order (actorId : String) (x y : Bid) (g : Gig)
    (s : Store)
    (hnd : (s.bids.map Bid.id).Nodup)
    (hx : x ∈ s.bids) (hgx : x.gigId = g.id)
    (hfg : findGig s g.id = some g)
    (hown : g.ownerId = actorId) (hopen : g.status = GigStatus.opened) :
    (hirePost true actorId g.id x.id s).1 = none
    ∧ (hirePost true actorId g.id y.id (hirePost true actorId g.id x.id s).2).1
        = some HireError.gigNotOpen
    ∧ (hirePost true actorId g.id y.id (hirePost true actorId g.id x.id s).2).2
        = (hirePost true actorId g.id x.id s).2
    ∧ hiredCount
        (hirePost true actorId g.id y.id (hirePost true actorId g.id x.id s).2).2
        g.id = 1 := by
  have heq1 := hirePost_success_eq actorId g.id x.id g s hfg hown hopen
  have hfg2 : s.gigs.find? (fun g2 => g2.id = g.id) = some g := hfg
  have hfgy : findGig
      { gigs := assignGig s.gigs g.id,
        bids := hireBidById (rejectBidsOfGig s.bids g.id) x.id }
      g.id = some { g with status := GigStatus.assigned } := by
    show (assignGig s.gigs g.id).find? (fun g2 => g2.id = g.id) = _
    rw [find_over_assignGig, hfg2]
    simp
  have heq2 := hirePost_not_open_eq true actorId g.id y.id
    { g with status := GigStatus.assigned }
    { gigs := assignGig s.gigs g.id,
      bids := hireBidById (rejectBidsOfGig s.bids g.id) x.id }
    hfgy hown (fun h => GigStatus.noConfusion h)
  refine ⟨?_, ?_, ?_, ?_⟩
  · rw [heq1]
  · rw [heq1]
    dsimp only
    rw [heq2]
  · rw [heq1]
    dsimp only
    rw [heq2]
  · rw [heq1]
    dsimp only
    rw [heq2]
    show hiredCount
      { gigs := assignGig s.gigs g.id,
        bids := hireBidById (rejectBidsOfGig s.bids g.id) x.id } g.id = 1
    unfold hiredCount
    dsimp only
    rw [← hgx, hiredBids_committed s.bids x hnd hx]
    rfl

/-- C4: two hire transactions for distinct bids b1 and b2 of the same open
gig serialize; in either serialization order exactly the first one succeeds,
the other observes the InvalidState error 'Gig is not open' and mutates
nothing, and the final store holds exactly one hired bid of the gig — for
the PATCH /api/bids/:bidId/hire handler and likewise for the POST /api/hire
handler. -/
theorem concurrent_hire_one_winner (actorId : String) (b1 b2 : Bid) (g : Gig)
    (s : Store)
    (hnd : (s.bids.map Bid.id).Nodup)
    (hb1 : b1 ∈ s.bids) (hb2 : b2 ∈ s.bids) (hne : b1.id ≠ b2.id)
    (hg1 : b1.gigId = g.id) (hg2 : b2.gigId = g.id)
    (hfg : findGig s g.id = some g)
    (hown : g.ownerId = actorId) (hopen : g.status = GigStatus.opened) :
    ((hirePatch true actorId b1.id s).1 = none
      ∧ (hirePatch true actorId b2.id (hirePatch true actorId b1.id s).2.1).1
          = some HireError.gigNotOpen
      ∧ (hirePatch true actorId b2.id (hirePatch true actorId b1.id s).2.1).2.1
          = (hirePatch true actorId b1.id s).2.1
      ∧ hiredCount
          (hirePatch true actorId b2.id (hirePatch true actorId b1.id s).2.1).2.1
          g.id = 1)
    ∧ ((hirePatch true actorId b2.id s).1 = none
      ∧ (hirePatch true actorId b1.id (hirePatch true actorId b2.id s).2.1).1
          = some HireError.gigNotOpen
      ∧ (hirePatch true actorId b1.id (hirePatch true actorId b2.id s).2.1).2.1
          = (hirePatch true actorId b2.id s).2.1
      ∧ hiredCount
          (hirePatch true actorId b1.id (hirePatch true actorId b2.id s).2.1).2.1
          g.id = 1)
    ∧ ((hirePost true actorId g.id b1.id s).1 = none
      ∧ (hirePost true actorId g.id b2.id (hirePost true actorId g.id b1.id s).2).1
          = some HireError.gigNotOpen
      ∧ (hirePost true actorId g.id b2.id (hirePost true actorId g.id b1.id s).2).2
          = (hirePost true actorId g.id b1.id s).2
      ∧ hiredCount
          (hirePost true actorId g.id b2.id (hirePost true actorId g.id b1.id s).2).2
          g.id = 1)
    ∧ ((hirePost true actorId g.id b2.id s).1 = none
      ∧ (hirePost true actorId g.id b1.id (hirePost true actorId g.id b2.id s).2).1
          = some HireError.gigNotOpen
      ∧ (hirePost true actorId g.id b1.id (hirePost true actorId g.id b2.id s).2).2
          = (hirePost true actorId g.id b2.id s).2
      ∧ hiredCount
          (hirePost true actorId g.id b1.id (hirePost true actorId g.id b2.id s).2).2
          g.id = 1) :=
  ⟨hire_race_order actorId b1 b2 g s hnd hb1 hb2 (fun h => hne h.symm)
     hg1 hg2 hfg hown hopen,
   hire_race_order actorId b2 b1 g s hnd hb2 hb1 hne hg2 hg1 hfg hown hopen,
   hirePost_race_order actorId b1 b2 g s hnd hb1 hg1 hfg hown hopen,
   hirePost_race_order actorId b2 b1 g s hnd hb2 hg2 hfg hown hopen⟩

/-- C4 witness: the race between bids b1 and b2 on the open gig g1 of
store1, in the order where b1 commits first, for both handlers. -/
theorem concurrent_hire_one_winner_witness :
    (bid1 ∈ store1.bids ∧ bid2 ∈ store1.bids ∧ bid1.id ≠ bid2.id
      ∧ findGig store1 "g1" = some gig1)
    ∧ (hirePatch true "owner1" bid2.id (hirePatch true "owner1" bid1.id store1).2.1).1
        = some HireError.gigNotOpen
    ∧ (hirePost true "owner1" "g1" bid2.id (hirePost true "owner1" "g1" bid1.id store1).2).1
        = some HireError.gigNotOpen := by
  have h := concurrent_hire_one_winner "owner1" bid1 bid2 gig1 store1
    (by decide) (by decide) (by decide) (by decide) (by decide) (by decide)
    (by decide) (by decide) (by decide)
  exact ⟨⟨by decide, by decide, by decide, by decide⟩, h.1.2.1, h.2.2.1.2.1⟩

/-- C9: a successful PATCH hire emits exactly one notification event,
addressed to the room named by the hired bid's freelancerId and carrying the
bid id, the gig id and the hired bid's price; and whether or not any
connection of that freelancer exists to receive it, the committed store keeps
exactly one hired bid of the gig — an undelivered notification undoes
nothing. -/
theorem hire_success_notification (actorId : String) (b : Bid) (g : Gig)
    (s : Store)
    (hnd : (s.bids.map Bid.id).Nodup) (hb : b ∈ s.bids)
    (hfg : findGig s b.gigId = some g)
    (hown : g.ownerId = actorId) (hopen : g.status = GigStatus.opened) :
    (hirePatch true actorId b.id s).1 = none
    ∧ (hirePatch true actorId b.id s).2.2
        = [{ room := b.freelancerId, id := b.id, gigId := b.gigId,
             price := b.price, status := BidStatus.hired }]
    ∧ hiredCount (hirePatch true actorId b.id s).2.1 b.gigId = 1
    ∧ (∀ connected : List String, connected.contains b.freelancerId = false →
        dispatchNotifications connected (hirePatch true actorId b.id s).2.2 = []) := by
  have hfb : findBid s b.id = some b := find_with_key_eq Bid.id s.bids b hnd hb
  have hfg2 : s.gigs.find? (fun g2 => g2.id = b.gigId) = some g := hfg
  have hgid : g.id = b.gigId := by
    have := List.find?_some hfg2
    simpa using this
  have heq := hirePatch_success_eq actorId b.id b g s hfb hfg hown hopen
  refine ⟨?_, ?_, ?_, ?_⟩
  · rw [heq]
  · rw [heq]
    dsimp only
    rw [hgid]
  · rw [heq]
    dsimp only
    unfold hiredCount
    dsimp only
    rw [hiredBids_committed s.bids b hnd hb]
    rfl
  · intro connected hcon
    rw [heq]
    dsimp only
    unfold dispatchNotifications
    simp [hcon]
    simpa using hcon

/-- C9 witness: hiring bid b1 of store1 emits the event for freelancer f1
with price 100, and with no connection for f1 nothing is delivered while the
hire stands. -/
theorem hire_success_notification_witness :
    (bid1 ∈ store1.bids ∧ findGig store1 "g1" = some gig1)
    ∧ (hirePatch true "owner1" "b1" store1).2.2
        = [{ room := "f1", id := "b1", gigId := "g1", price := 100,
             status := BidStatus.hired }] :=
  ⟨⟨by decide, by decide⟩,
   (hire_success_notification "owner1" bid1 gig1 store1
      (by decide) (by decide) (by decide) (by decide) (by decide)).2.1⟩

/-- C10: once the module-level isBackendOffline flag of the client API layer
is true it is never reset; every subsequent requestWithFallback call skips
the network entirely and runs the localStorage fallback, for the remainder of
the process lifetime (any further sequence of fetch outcomes). -/
theorem offline_flag_latches (os : List FetchOutcome) :
    runTrace true os = (true, os.map (fun _ => ReqPath.fallbackDirect)) := by
  induction os with
  | nil => rfl
  | cons o t ih => simp [runTrace, requestStep, ih]

